import Mathlib

/-!
Verification development for the s3-speed-comparison benchmark.

The benchmark script (the sampling harness) and the reporting script
(chart/table generation) are embedded shallowly below.  JS numbers that the
program only ever uses as integers (byte counts, millisecond durations,
part numbers) are modelled as `Nat`; statistics that may be fractional or
NaN are modelled over `ℚ` with an explicit NaN constructor.  Network calls
are abstracted by environments supplying the responses the code reads
(multipart-initiation fields, per-part ETag headers); wall-clock time is
abstracted by streams of per-iteration durations.
-/

namespace S3Bench

/-! ## SizeParser: model of sizeToBytes and the JS parseFloat builtin -/

/-- Longest leading run of decimal digits of a character list, together with
the rest.  This models the digit scanning done by the JS `parseFloat`
builtin. -/
def digitsSpan : List Char → List Char × List Char
  | [] => ([], [])
  | c :: cs =>
    if c.isDigit then
      let r := digitsSpan cs
      (c :: r.1, r.2)
    else ([], c :: cs)

/-- Value of a digit list read as a base-10 numeral. -/
def digitsVal (ds : List Char) : Nat :=
  ds.foldl (fun a c => a * 10 + (c.toNat - 48)) 0

/-- Model of the JS `parseFloat` builtin, restricted to the unsigned decimal
literals (`digits`, `digits.digits`, `.digits`, `digits.`) that the size
strings of this program use: it parses the longest numeric prefix of the
string and ignores everything after it; `none` models the JS result `NaN`.
JS float values are modelled exactly, as rationals. -/
def parseFloat (s : String) : Option ℚ :=
  let p := digitsSpan s.data
  match p.2 with
  | '.' :: rest =>
    let f := digitsSpan rest
    if p.1.isEmpty && f.1.isEmpty then none
    else some ((digitsVal p.1 : ℚ) + (digitsVal f.1 : ℚ) / ((10 : ℚ) ^ f.1.length))
  | _ => if p.1.isEmpty then none else some ((digitsVal p.1 : ℚ))

/-- Model of JS `String.prototype.endsWith` for a one-character suffix, the
only form `sizeToBytes` uses. -/
def endsWithChar (s : String) (c : Char) : Bool :=
  s.data.getLast? == some c

/-- Outcome of `sizeToBytes`: a finite JS number, the JS value `NaN`
(produced when `parseFloat` returns NaN and is then multiplied), or a thrown
`Error`. -/
inductive SizeResult
  | value (q : ℚ)
  | nan
  | error (msg : String)
deriving DecidableEq

/-- Embedding of `sizeToBytes` (src/unnamed/part_000, lines 112-121): suffix
dispatch by `endsWith`, multiplication of the `parseFloat` result by 1024,
1024*1024 or 1024*1024*1024, and a thrown error on any other suffix.  A NaN
from `parseFloat` propagates through the multiplication unchanged. -/
def sizeToBytes (size : String) : SizeResult :=
  if endsWithChar size 'k' then
    match parseFloat size with
    | some q => .value (q * 1024)
    | none => .nan
  else if endsWithChar size 'm' then
    match parseFloat size with
    | some q => .value (q * (1024 * 1024))
    | none => .nan
  else if endsWithChar size 'g' then
    match parseFloat size with
    | some q => .value (q * (1024 * 1024 * 1024))
    | none => .nan
  else .error ("Invalid size " ++ size)

/-- Modelled from the spec: the numeric value of a size string's prefix
"numeric prefix (integer or decimal)", written with integer digits `ip` and
fractional digits `fp`.  Used only to state the SizeParser contract. -/
def decimalNumeralVal (ip fp : List Char) : ℚ :=
  (digitsVal ip : ℚ) + (digitsVal fp : ℚ) / ((10 : ℚ) ^ fp.length)

/-- Modelled from the spec: the multiplier `1024^n`, n = 1, 2, 3, attached to
the suffixes k, m, g. -/
def suffixMultiplier (c : Char) : ℚ :=
  if c = 'k' then 1024
  else if c = 'm' then 1024 * 1024
  else if c = 'g' then 1024 * 1024 * 1024
  else 0

/-! ## Key synthesis -/

/-- Embedding of `getKey` (src/unnamed/part_000, lines 36-38): the key is
the prefix, a slash, and the decimal renderings of the seconds and
nanoseconds fields of a `process.hrtime()` reading, concatenated with no
separator.  The reading is passed explicitly as a pair. -/
def getKey (base : String) (t : Nat × Nat) : String :=
  (base ++ "/") ++ (Nat.repr t.1 ++ Nat.repr t.2)

/-! ## Sampler loop (measure) -/

/-- Embedding of the sampling loop of `measure` (src/unnamed/part_000,
lines 179-194).  `d i` is the wall-clock duration of the i-th iteration of
the scenario action; `budget` is `maxTimeMs`; `samples` is the current
`measures[name]` bucket; `t` is `Date.now() - overallStart`, which starts at
the setup duration and grows by each iteration's duration.  The loop runs
while `samples.length < 3 || t < budget`, appending each iteration's
duration.  `fuel` bounds the number of iterations the model will unfold;
`none` means the fuel ran out with the loop still running. -/
def sampleLoop (d : Nat → Nat) (budget : Nat) :
    Nat → List Nat → Nat → Option (List Nat)
  | 0, samples, t =>
    if samples.length < 3 ∨ t < budget then none else some samples
  | fuel + 1, samples, t =>
    if samples.length < 3 ∨ t < budget then
      sampleLoop d budget fuel (samples ++ [d samples.length]) (t + d samples.length)
    else some samples

/-! ## Multipart iteration (the fn of measureMultipartUploadCases) -/

/-- Environment of one multipart iteration: the `UploadId` and `Key` fields
of the initiation response (absent fields are `none`), and for each part
number the optional `ETag` header of that part's PUT response. -/
structure IterEnv where
  uploadId : Option String
  key : Option String
  etag : Nat → Option String

/-- JS falsiness of an optional string: `undefined` and the empty string are
falsy.  Models the `!UploadId || !Key` check. -/
def jsFalsy (s : Option String) : Bool :=
  (s.getD ("")) == ""

/-- Embedding of `completeMultipart`'s part-list construction
(src/unnamed/part_000, lines 75-93): each collected tag is paired with
`PartNumber = index + 1`, in order. -/
def completeMultipartParts (eTags : List String) : List (String × Nat) :=
  eTags.enum.map (fun p => (p.2, p.1 + 1))

/-- Embedding of the `while (remainingBytes > chunkSize)` loop of the
multipart iteration (src/unnamed/part_000, lines 260-267): each iteration
records a part upload `(partNumber, chunkSize)` (the payload is
`chunkData`, of `chunkSize` bytes), increments the part number and
decreases the remaining byte count by the chunk size.  Returns the recorded
parts, the final part number and the final remaining byte count.  `fuel`
bounds the unfolding; `none` means fuel ran out with the guard still
true. -/
def partsLoop : Nat → Nat → Nat → Nat → Option (List (Nat × Nat) × Nat × Nat)
  | 0, c, r, p => if r > c then none else some ([], p, r)
  | fuel + 1, c, r, p =>
    if r > c then
      (partsLoop fuel c (r - c) (p + 1)).map (fun w => ((p, c) :: w.1, w.2.1, w.2.2))
    else some ([], p, r)

/-- Observable trace of one multipart iteration: the issued part uploads as
`(partNumber, payload byte count)` pairs in order, whether the
`remainingBytes > 0` branch ran, the collected completion tags in order, the
`(ETag, PartNumber)` list handed to the finalize call, and the number of
finalize calls made. -/
structure IterTrace where
  parts : List (Nat × Nat)
  lastPartTaken : Bool
  eTags : List String
  finalizeParts : List (String × Nat)
  finalizeCalls : Nat
deriving DecidableEq

/-- Embedding of the per-iteration action `fn` of
`measureMultipartUploadCases` (src/unnamed/part_000, lines 239-282): check
the initiation response fields for JS falsiness (throwing if either is
absent or empty), run the `while (remainingBytes > chunkSize)` part-upload
loop with `chunkData`, then, if `remainingBytes > 0` still holds, upload
`lastChunkData` — whose size is `sizeBytes % chunkSize`, fixed at setup
time — as one more part, collect each part's tag via
`headers.get('ETag') ?? ''`, and make exactly one finalize call with the
collected tags.  The outer `Option` is the fuel bound of the while loop. -/
def multipartIteration (env : IterEnv) (sizeBytes chunkSize fuel : Nat) :
    Option (Except String IterTrace) :=
  if jsFalsy env.uploadId || jsFalsy env.key then
    some (Except.error ("UploadId or Key is undefined"))
  else
    (partsLoop fuel chunkSize sizeBytes 1).map (fun w =>
      let parts := w.1 ++ (if w.2.2 > 0 then [(w.2.1, sizeBytes % chunkSize)] else [])
      let tags := parts.map (fun pr => ((env.etag pr.1).getD ("")))
      Except.ok
        { parts := parts
          lastPartTaken := decide (w.2.2 > 0)
          eTags := tags
          finalizeParts := completeMultipartParts tags
          finalizeCalls := 1 })

/-! ## Measurement buckets of a multipart scenario -/

/-- Durations of the three phases of one multipart iteration: initiation,
the part-upload section, and the finalize call. -/
structure MPDur where
  tInit : Nat
  tParts : Nat
  tFin : Nat

/-- The three measurement buckets of one multipart scenario (the total
bucket driven by `measure`, and the upload and complete buckets pushed
inside `fn`), plus the elapsed time since `overallStart`. -/
structure MPState where
  total : List Nat
  upload : List Nat
  complete : List Nat
  now : Nat
deriving DecidableEq

/-- One iteration of a multipart scenario as seen by the measurement
buckets (src/unnamed/part_000, lines 179-194 and 239-282): `fn` pushes the
part-upload-section duration to the upload bucket and the finalize duration
to the complete bucket, and `measure` pushes the whole iteration's duration
— initiation plus part uploads plus finalize — to the total bucket. -/
def mpIter (d : MPDur) (st : MPState) : MPState :=
  { total := st.total ++ [d.tInit + d.tParts + d.tFin]
    upload := st.upload ++ [d.tParts]
    complete := st.complete ++ [d.tFin]
    now := st.now + (d.tInit + d.tParts + d.tFin) }

/-- The `measure` loop specialised to a multipart scenario: the loop guard
reads the total bucket (`measures[name]`), and each iteration updates all
three buckets via `mpIter`.  `d i` gives the phase durations of the i-th
iteration. -/
def mpRun (d : Nat → MPDur) (budget : Nat) : Nat → MPState → Option MPState
  | 0, st =>
    if st.total.length < 3 ∨ st.now < budget then none else some st
  | fuel + 1, st =>
    if st.total.length < 3 ∨ st.now < budget then
      mpRun d budget fuel (mpIter (d st.total.length) st)
    else some st

/-- Bucket coherence after k completed iterations: each bucket holds exactly
one sample per iteration, the upload bucket the part-phase durations, the
complete bucket the finalize durations, and the total bucket the sum of all
three phases of its iteration. -/
def mpCoherent (d : Nat → MPDur) (k : Nat) (st : MPState) : Prop :=
  st.total = (List.range k).map (fun i => (d i).tInit + (d i).tParts + (d i).tFin) ∧
  st.upload = (List.range k).map (fun i => (d i).tParts) ∧
  st.complete = (List.range k).map (fun i => (d i).tFin)

/-! ## Reporter (chart.ts) -/

/-- A JS number as the reporter's statistics produce it: a finite value
(exact, as a rational) or NaN. -/
inductive JVal
  | num (q : ℚ)
  | nan
deriving DecidableEq

/-- Model of fast-stats `amean()` over the pushed samples: the arithmetic
mean, and NaN (0/0) when no samples were pushed. -/
def amean (xs : List ℚ) : JVal :=
  if xs.length = 0 then .nan else .num (xs.sum / (xs.length : ℚ))

/-- A value of a chart series: JS `null`, a finite number, or NaN. -/
inductive ChartCell
  | null
  | num (q : ℚ)
  | nan
deriving DecidableEq

/-- A rendered table cell: the empty string, the text "NaN" (what
`NaN.toFixed(3)` yields), or the fixed-point rendering of a finite
number. -/
inductive TableCell
  | blank
  | nanText
  | numText (q : ℚ)
deriving DecidableEq

/-- Model of JS `String.prototype.startsWith`. -/
def jsStartsWith (s pre : String) : Bool :=
  List.isPrefixOf pre.data s.data

/-- Model of JS `String.prototype.split('-')`. -/
def splitDashAux : List Char → List Char → List (List Char)
  | [], acc => [acc.reverse]
  | c :: cs, acc =>
    if c = '-' then acc.reverse :: splitDashAux cs []
    else splitDashAux cs (c :: acc)

/-- Model of JS `s.split('-')[i]`, with the empty string for the JS value
`undefined` on an out-of-range index. -/
def splitDashField (s : String) (i : Nat) : String :=
  String.mk ((splitDashAux s.data []).getD i [])

/-- Embedding of the `byType.traditional` row construction of
`fullUploadStats` (src/chart.ts, lines 149-163): the `for (key in results)`
loop assigns `new Stats().push(results[key]).amean()` to the column
`key.split('-')[2]` for every key starting with "traditional-upload", later
keys overwriting earlier ones.  The store is the parsed results file as an
association list. -/
def traditionalCell (st : List (String × List ℚ)) (size : String) : Option JVal :=
  st.foldl
    (fun acc kv =>
      if jsStartsWith kv.1 ("traditional-upload") && splitDashField kv.1 2 == size
      then some (amean kv.2) else acc)
    none

/-- Embedding of a cell of `dataFromRow` in `fullUploadStats` (src/chart.ts,
lines 165-185): `row[size] ?? null` — an absent column becomes `null`, but a
NaN mean is not nullish and stays NaN in the chart series. -/
def fullUploadChartCell (v : Option JVal) : ChartCell :=
  match v with
  | none => .null
  | some .nan => .nan
  | some (.num q) => .num q

/-- Embedding of a cell of `tableFromRow` in `fullUploadStats` (src/chart.ts,
lines 187-196): `v?.toFixed(3) ?? ''` — an absent column renders blank, a
NaN mean renders as the text "NaN", a finite mean as its fixed-point
text. -/
def fullUploadTableCell (v : Option JVal) : TableCell :=
  match v with
  | none => .blank
  | some .nan => .nanText
  | some (.num q) => .numText q

/-- Embedding of one statistic of `dataFromRow` in
`processDetailedMultipartStats` (src/chart.ts, lines 399-432):
`new Stats().push(results[key]).amean()`.  A key absent from the store
pushes `undefined`, whose mean is NaN; a present key with no samples also
yields NaN. -/
def detailedStat (st : List (String × List ℚ)) (key : String) : JVal :=
  match st.lookup key with
  | none => .nan
  | some xs => amean xs

/-- Embedding of a table cell of `processDetailedMultipartStats`
(src/chart.ts, lines 551-647): `isNaN(x) ? '' : x.toFixed(3)` — here a NaN
statistic is rendered blank. -/
def detailedTableCell (v : JVal) : TableCell :=
  match v with
  | .nan => .blank
  | .num q => .numText q

/-- Embedding of a chart-series cell of `processDetailedMultipartStats`
(src/chart.ts, lines 434-549): the raw statistic is passed to the chart
datasets unmodified, so a NaN statistic stays NaN. -/
def detailedChartCell (v : JVal) : ChartCell :=
  match v with
  | .nan => .nan
  | .num q => .num q

/-! ## Concrete instances used by witnesses and counterexamples -/

/-- A benign multipart iteration environment: both session fields present
and nonempty, every part PUT answered with the ETag "e". -/
def sampleEnv : IterEnv :=
  ⟨some ("u"), some ("k"), fun _ => some ("e")⟩

/-- A store whose only scenario is present with an empty sample sequence. -/
def emptyScenarioStore : List (String × List ℚ) :=
  [(("traditional-upload-5m" : String), ([] : List ℚ))]

/-- An environment whose part PUT responses never carry an ETag header. -/
def noTagEnv : IterEnv :=
  ⟨some ("u"), some ("k"), fun _ => none⟩

/-- The trace of one (10m, 5m)-shaped iteration under `noTagEnv`: every
collected tag is the empty string. -/
def noTagTrace : IterTrace :=
  { parts := [(1, 5242880), (2, 0)]
    lastPartTaken := true
    eTags := ["", ""]
    finalizeParts := [("", 1), ("", 2)]
    finalizeCalls := 1 }

/-! ## Helper lemmas -/

/-- The digit scanner splits a string made of a digit run followed by a
non-digit-headed tail exactly at the boundary. -/
theorem digitsSpan_append (ds rest : List Char)
    (hds : ∀ c ∈ ds, c.isDigit = true)
    (hrest : ∀ c, rest.head? = some c → c.isDigit = false) :
    digitsSpan (ds ++ rest) = (ds, rest) := by
  induction ds with
  | nil =>
    cases rest with
    | nil => rfl
    | cons c cs =>
      simp [digitsSpan, hrest c rfl]
  | cons c cs ih =>
    have hc := hds c (by simp)
    have ih2 := ih (fun x hx => hds x (by simp [hx]))
    simp [digitsSpan, hc, ih2]

/-- parseFloat on an integer numeral followed by a single non-digit,
non-dot character yields the numeral's value: the trailing character is
ignored. -/
theorem parseFloat_int_suffix (ds : List Char) (c : Char)
    (hds : ∀ x ∈ ds, x.isDigit = true) (hne : ds ≠ [])
    (hc : c.isDigit = false) (hdot : c ≠ '.') :
    parseFloat (String.mk (ds ++ [c])) = some ((digitsVal ds : ℚ)) := by
  have hspan : digitsSpan (ds ++ [c]) = (ds, [c]) := by
    refine digitsSpan_append ds [c] hds ?_
    intro x hx
    simp only [List.head?_cons, Option.some.injEq] at hx
    exact hx ▸ hc
  simp only [parseFloat, String.data]
  rw [hspan]
  split
  · rename_i rest heq
    injection heq with h1 h2
    exact absurd h1 hdot
  · cases ds with
    | nil => exact absurd rfl hne
    | cons a as => simp [List.isEmpty]

/-- parseFloat on a decimal numeral `ip.fp` followed by a single non-digit
character yields the numeral's value: the trailing character is ignored. -/
theorem parseFloat_frac_suffix (ip fp : List Char) (c : Char)
    (hip : ∀ x ∈ ip, x.isDigit = true) (hfp : ∀ x ∈ fp, x.isDigit = true)
    (hne : ip ≠ [] ∨ fp ≠ []) (hc : c.isDigit = false) :
    parseFloat (String.mk (ip ++ '.' :: (fp ++ [c]))) =
      some (decimalNumeralVal ip fp) := by
  have hspan : digitsSpan (ip ++ '.' :: (fp ++ [c])) = (ip, '.' :: (fp ++ [c])) := by
    refine digitsSpan_append ip _ hip ?_
    intro x hx
    simp only [List.head?_cons, Option.some.injEq] at hx
    rw [← hx]
    decide
  have hspan2 : digitsSpan (fp ++ [c]) = (fp, [c]) := by
    refine digitsSpan_append fp [c] hfp ?_
    intro x hx
    simp only [List.head?_cons, Option.some.injEq] at hx
    exact hx ▸ hc
  have hemp : (ip.isEmpty && fp.isEmpty) = false := by
    rcases hne with h | h
    · cases ip with
      | nil => exact absurd rfl h
      | cons a as => simp [List.isEmpty]
    · cases fp with
      | nil => exact absurd rfl h
      | cons a as => simp [List.isEmpty]
  simp only [parseFloat, String.data]
  rw [hspan]
  rw [show (ip, '.' :: (fp ++ [c])).2 = '.' :: (fp ++ [c]) from rfl]
  simp only [hspan2, hemp, Bool.false_eq_true, if_false]
  rfl

/-- endsWith on a string ending in a known character reduces to comparing
the two characters. -/
theorem endsWithChar_concat (l : List Char) (c x : Char) :
    endsWithChar (String.mk (l ++ [c])) x = (c == x) := by
  simp [endsWithChar, List.getLast?_concat]

/-- With a positive chunk size and fuel at least the remaining byte count,
the part-upload while loop always terminates. -/
theorem partsLoop_total (c : Nat) (hc : 0 < c) :
    ∀ fuel r p, r ≤ fuel → ∃ w, partsLoop fuel c r p = some w := by
  intro fuel
  induction fuel with
  | zero =>
    intro r p hr
    have h0 : r = 0 := Nat.le_zero.mp hr
    subst h0
    exact ⟨([], p, 0), by simp [partsLoop]⟩
  | succ n ih =>
    intro r p hr
    by_cases h : r > c
    · obtain ⟨w, hw⟩ := ih (r - c) (p + 1) (by omega)
      refine ⟨((p, c) :: w.1, w.2.1, w.2.2), ?_⟩
      simp [partsLoop, h, hw]
    · exact ⟨([], p, r), by simp [partsLoop, h]⟩

/-- Appending on the left is cancellative for strings. -/
theorem string_append_cancel_left (a x y : String) : a ++ x = a ++ y ↔ x = y := by
  constructor
  · intro h
    have hd := congrArg String.data h
    rw [String.data_append, String.data_append] at hd
    exact String.ext (List.append_cancel_left hd)
  · intro h
    rw [h]

/-- One multipart iteration keeps the three measurement buckets coherent:
it moves a k-iterations state to a (k+1)-iterations state. -/
theorem mpIter_coherent (d : Nat → MPDur) (k : Nat) (st : MPState)
    (h : mpCoherent d k st) : mpCoherent d (k + 1) (mpIter (d k) st) := by
  obtain ⟨h1, h2, h3⟩ := h
  refine ⟨?_, ?_, ?_⟩ <;>
    simp [mpIter, h1, h2, h3, List.range_succ]

/-- The measure loop over a multipart scenario preserves bucket coherence
from any coherent state to its final state. -/
theorem mpRun_coherent (d : Nat → MPDur) (budget : Nat) :
    ∀ fuel k st st', mpCoherent d k st → mpRun d budget fuel st = some st' →
      ∃ n, mpCoherent d n st' := by
  intro fuel
  induction fuel with
  | zero =>
    intro k st st' hc h
    unfold mpRun at h
    split at h
    · exact absurd h (by simp)
    · injection h with h2
      exact ⟨k, h2 ▸ hc⟩
  | succ n ih =>
    intro k st st' hc h
    unfold mpRun at h
    split at h
    · have hlen : st.total.length = k := by
        rw [hc.1]
        simp
      rw [hlen] at h
      exact ih (k + 1) _ st' (mpIter_coherent d k st hc) h
    · injection h with h2
      exact ⟨k, h2 ▸ hc⟩

/-! ## Claim C1 -/

/-- Claim C1: the sampling loop of `measure` continues exactly while
(samples collected < 3) OR (elapsed-since-scenario-start < maxBudgetMs);
started on an empty bucket it records exactly 3 samples — never fewer and
never more — both when the budget is 0 ms and when every iteration takes
longer than the budget. -/
theorem sampler_floor_of_three (d : Nat → Nat) (budget t0 : Nat) :
    (∀ fuel samples t, ¬(samples.length < 3 ∨ t < budget) →
      sampleLoop d budget fuel samples t = some samples) ∧
    (∀ fuel samples t, (samples.length < 3 ∨ t < budget) →
      sampleLoop d budget (fuel + 1) samples t =
        sampleLoop d budget fuel (samples ++ [d samples.length])
          (t + d samples.length)) ∧
    (budget = 0 → sampleLoop d budget 3 [] t0 = some [d 0, d 1, d 2]) ∧
    ((∀ i, budget < d i) → sampleLoop d budget 3 [] t0 = some [d 0, d 1, d 2]) := by
  have hstep : ∀ fuel samples t, (samples.length < 3 ∨ t < budget) →
      sampleLoop d budget (fuel + 1) samples t =
        sampleLoop d budget fuel (samples ++ [d samples.length])
          (t + d samples.length) := by
    intro fuel s t h
    simp only [sampleLoop, if_pos h]
  have hstop : ∀ fuel samples t, ¬(samples.length < 3 ∨ t < budget) →
      sampleLoop d budget fuel samples t = some samples := by
    intro fuel s t h
    cases fuel <;> simp only [sampleLoop, if_neg h]
  refine ⟨hstop, hstep, ?_, ?_⟩
  · intro hb
    subst hb
    rw [show (3 : Nat) = 2 + 1 from rfl, hstep 2 [] t0 (Or.inl (by simp))]
    rw [show (2 : Nat) = 1 + 1 from rfl, hstep 1 _ _ (Or.inl (by simp))]
    rw [show (1 : Nat) = 0 + 1 from rfl, hstep 0 _ _ (Or.inl (by simp))]
    rw [hstop 0 _ _ (by simp)]
    simp
  · intro h
    rw [show (3 : Nat) = 2 + 1 from rfl, hstep 2 [] t0 (Or.inl (by simp))]
    rw [show (2 : Nat) = 1 + 1 from rfl, hstep 1 _ _ (Or.inl (by simp))]
    rw [show (1 : Nat) = 0 + 1 from rfl, hstep 0 _ _ (Or.inl (by simp))]
    rw [hstop 0 _ _ (by
      have h0 := h 0
      simp
      omega)]
    simp

/-- Witness for C1: the sampler theorem applied to a concrete duration
stream in which every iteration exceeds the 3 ms budget. -/
theorem sampler_floor_of_three_witness :
    sampleLoop (fun i => i + 5) 3 3 [] 0 = some [5, 6, 7] :=
  (sampler_floor_of_three (fun i => i + 5) 3 0).2.2.2 (fun i => by omega)

/-! ## Claim C2 -/

/-- Claim C2 (counterexample): for size "5m" and chunk "5m" — where
5242880 % 5242880 = 0 — the `remaining > 0` branch is NOT skipped: the
while loop runs zero times, and it is the `remaining > 0` branch that
issues the single (zero-byte) part upload, contradicting the claim. -/
theorem multipart_equal_chunks_cex :
    multipartIteration sampleEnv 5242880 5242880 1 =
      some (Except.ok
        { parts := [(1, 0)]
          lastPartTaken := true
          eTags := ["e"]
          finalizeParts := [("e", 1)]
          finalizeCalls := 1 }) ∧
    5242880 % 5242880 = 0 :=
  ⟨rfl, by decide⟩

/-- Claim C2 (amended): for the multipart scenario with size "5m" and
chunk "5m", one iteration issues exactly 1 part upload — the while loop
contributes no parts, and the `remaining > 0` branch (which is taken, not
skipped) issues that single part, carrying 5242880 % 5242880 = 0 bytes —
and exactly 1 finalize call carrying exactly 1 tag. -/
theorem multipart_equal_chunks_amended (env : IterEnv)
    (hU : jsFalsy env.uploadId = false) (hK : jsFalsy env.key = false) :
    multipartIteration env 5242880 5242880 1 =
      some (Except.ok
        { parts := [(1, 5242880 % 5242880)]
          lastPartTaken := true
          eTags := [((env.etag 1).getD (""))]
          finalizeParts := [(((env.etag 1).getD ("")), 1)]
          finalizeCalls := 1 }) ∧
    5242880 % 5242880 = 0 ∧
    sizeToBytes ("5m") = SizeResult.value ((5242880 : ℚ)) := by
  refine ⟨?_, by decide, ?_⟩
  · have hloop : partsLoop 1 5242880 5242880 1 = some ([], 1, 5242880) := by decide
    simp [multipartIteration, hU, hK, hloop, completeMultipartParts]
  · simp [sizeToBytes, parseFloat, endsWithChar, digitsSpan, digitsVal]
    norm_num

/-- Witness for C2: the amended theorem applied to the concrete benign
environment. -/
theorem multipart_equal_chunks_amended_witness :
    multipartIteration sampleEnv 5242880 5242880 1 =
      some (Except.ok
        { parts := [(1, 5242880 % 5242880)]
          lastPartTaken := true
          eTags := [((sampleEnv.etag 1).getD (""))]
          finalizeParts := [(((sampleEnv.etag 1).getD ("")), 1)]
          finalizeCalls := 1 }) ∧
    5242880 % 5242880 = 0 ∧
    sizeToBytes ("5m") = SizeResult.value ((5242880 : ℚ)) :=
  multipart_equal_chunks_amended sampleEnv rfl rfl

/-! ## Claim C3 -/

/-- Claim C3: for the multipart scenario with size "10m" and chunk "5m",
one iteration issues exactly 2 part uploads — the first chunk-sized
(5242880 bytes), the second carrying the remainder bytes
(10485760 % 5242880, which is 0) — and exactly 1 finalize call carrying
exactly 2 tags in part order. -/
theorem multipart_two_parts (env : IterEnv)
    (hU : jsFalsy env.uploadId = false) (hK : jsFalsy env.key = false) :
    multipartIteration env 10485760 5242880 2 =
      some (Except.ok
        { parts := [(1, 5242880), (2, 10485760 % 5242880)]
          lastPartTaken := true
          eTags := [((env.etag 1).getD ("")), ((env.etag 2).getD (""))]
          finalizeParts :=
            [(((env.etag 1).getD ("")), 1), (((env.etag 2).getD ("")), 2)]
          finalizeCalls := 1 }) ∧
    10485760 % 5242880 = 0 ∧
    sizeToBytes ("10m") = SizeResult.value ((10485760 : ℚ)) ∧
    sizeToBytes ("5m") = SizeResult.value ((5242880 : ℚ)) := by
  refine ⟨?_, by decide, ?_, ?_⟩
  · have hloop : partsLoop 2 5242880 10485760 1 =
        some ([(1, 5242880)], 2, 5242880) := by decide
    simp [multipartIteration, hU, hK, hloop, completeMultipartParts,
      List.enum, List.enumFrom]
  · simp [sizeToBytes, parseFloat, endsWithChar, digitsSpan, digitsVal]
    norm_num
  · simp [sizeToBytes, parseFloat, endsWithChar, digitsSpan, digitsVal]
    norm_num

/-- Witness for C3: the theorem applied to the concrete benign
environment. -/
theorem multipart_two_parts_witness :
    multipartIteration sampleEnv 10485760 5242880 2 =
      some (Except.ok
        { parts := [(1, 5242880), (2, 10485760 % 5242880)]
          lastPartTaken := true
          eTags := [((sampleEnv.etag 1).getD ("")), ((sampleEnv.etag 2).getD (""))]
          finalizeParts :=
            [(((sampleEnv.etag 1).getD ("")), 1), (((sampleEnv.etag 2).getD ("")), 2)]
          finalizeCalls := 1 }) ∧
    10485760 % 5242880 = 0 ∧
    sizeToBytes ("10m") = SizeResult.value ((10485760 : ℚ)) ∧
    sizeToBytes ("5m") = SizeResult.value ((5242880 : ℚ)) :=
  multipart_two_parts sampleEnv rfl rfl

/-! ## Claim C4 -/

/-- Claim C4 (counterexample): sizeToBytes applies no rounding.  For the
size string "0.1k" the code returns 0.1 × 1024 = 102.4 exactly (JS numbers
modelled as rationals), which differs from round(0.1 × 1024) = 102, so the
claimed contract "returns round(numericPrefix × 1024^n)" fails. -/
theorem sizeToBytes_round_cex :
    sizeToBytes ("0.1k") = SizeResult.value ((512 : ℚ) / 5) ∧
    round ((512 : ℚ) / 5) = (102 : ℤ) ∧
    ((512 : ℚ) / 5) ≠ ((102 : ℤ) : ℚ) := by
  refine ⟨?_, by norm_num [round_eq], by norm_num⟩
  simp [sizeToBytes, parseFloat, endsWithChar, digitsSpan, digitsVal]
  norm_num

/-- Claim C4 (amended): for every size string consisting of a numeric
prefix (an integer numeral, or a decimal numeral with a dot) followed by a
single lowercase suffix k, m or g, sizeToBytes returns exactly
numericPrefix × 1024^n with n = 1, 2, 3 respectively — with no rounding
applied. -/
theorem sizeToBytes_exact :
    (∀ (ds : List Char) (c : Char), (∀ x ∈ ds, x.isDigit = true) → ds ≠ [] →
      (c = 'k' ∨ c = 'm' ∨ c = 'g') →
      sizeToBytes (String.mk (ds ++ [c])) =
        SizeResult.value (decimalNumeralVal ds [] * suffixMultiplier c)) ∧
    (∀ (ip fp : List Char) (c : Char), (∀ x ∈ ip, x.isDigit = true) →
      (∀ x ∈ fp, x.isDigit = true) → (ip ≠ [] ∨ fp ≠ []) →
      (c = 'k' ∨ c = 'm' ∨ c = 'g') →
      sizeToBytes (String.mk (ip ++ '.' :: (fp ++ [c]))) =
        SizeResult.value (decimalNumeralVal ip fp * suffixMultiplier c)) := by
  constructor
  · intro ds c hds hne hsuf
    have hval : decimalNumeralVal ds [] = (digitsVal ds : ℚ) := by
      simp [decimalNumeralVal, digitsVal]
    rcases hsuf with rfl | rfl | rfl
    · have hpf := parseFloat_int_suffix ds 'k' hds hne (by decide) (by decide)
      rw [hval]
      simp [sizeToBytes, endsWithChar_concat, hpf, suffixMultiplier]
    · have hpf := parseFloat_int_suffix ds 'm' hds hne (by decide) (by decide)
      rw [hval]
      simp [sizeToBytes, endsWithChar_concat, hpf, suffixMultiplier]
    · have hpf := parseFloat_int_suffix ds 'g' hds hne (by decide) (by decide)
      rw [hval]
      simp [sizeToBytes, endsWithChar_concat, hpf, suffixMultiplier]
  · intro ip fp c hip hfp hne hsuf
    have hend : ∀ x : Char, endsWithChar (String.mk (ip ++ '.' :: (fp ++ [c]))) x =
        (c == x) := by
      intro x
      rw [show ip ++ '.' :: (fp ++ [c]) = (ip ++ '.' :: fp) ++ [c] by simp]
      exact endsWithChar_concat _ c x
    rcases hsuf with rfl | rfl | rfl
    · have hpf := parseFloat_frac_suffix ip fp 'k' hip hfp hne (by decide)
      simp [sizeToBytes, hend, hpf, suffixMultiplier]
    · have hpf := parseFloat_frac_suffix ip fp 'm' hip hfp hne (by decide)
      simp [sizeToBytes, hend, hpf, suffixMultiplier]
    · have hpf := parseFloat_frac_suffix ip fp 'g' hip hfp hne (by decide)
      simp [sizeToBytes, hend, hpf, suffixMultiplier]

/-- Witness for C4: the amended theorem instantiated at "1.5g". -/
theorem sizeToBytes_exact_witness :
    sizeToBytes (String.mk (['1'] ++ '.' :: (['5'] ++ ['g']))) =
      SizeResult.value (decimalNumeralVal ['1'] ['5'] * suffixMultiplier 'g') :=
  sizeToBytes_exact.2 ['1'] ['5'] 'g' (by decide) (by decide)
    (Or.inl (by decide)) (Or.inr (Or.inr rfl))

/-! ## Claim C5 -/

/-- Claim C5 (counterexample): the input "xk" has a valid suffix but a
malformed numeric prefix, yet sizeToBytes returns the JS value NaN instead
of throwing the invalid-size error, so the claim as stated fails. -/
theorem sizeToBytes_malformed_nan_cex :
    sizeToBytes ("xk") = SizeResult.nan ∧
    SizeResult.nan ≠ SizeResult.error ("Invalid size xk") :=
  ⟨by decide, by decide⟩

/-- Claim C5 (amended): an input whose suffix is not k, m or g throws the
invalid-size error before any network activity; an input with a valid
suffix whose numeric prefix is malformed (parseFloat yields NaN) does NOT
throw — the NaN propagates through the multiplication and is returned. -/
theorem sizeToBytes_error_amended :
    (∀ s : String, endsWithChar s 'k' = false → endsWithChar s 'm' = false →
      endsWithChar s 'g' = false →
      sizeToBytes s = SizeResult.error ("Invalid size " ++ s)) ∧
    (∀ s : String, parseFloat s = none →
      (endsWithChar s 'k' || endsWithChar s 'm' || endsWithChar s 'g') = true →
      sizeToBytes s = SizeResult.nan) := by
  constructor
  · intro s h1 h2 h3
    simp [sizeToBytes, h1, h2, h3]
  · intro s hpf hsuf
    by_cases hk : endsWithChar s 'k' = true
    · simp [sizeToBytes, hk, hpf]
    · by_cases hm : endsWithChar s 'm' = true
      · simp [sizeToBytes, hk, hm, hpf]
      · have hg : endsWithChar s 'g' = true := by
          simp [Bool.not_eq_true] at hk hm
          simpa [hk, hm] using hsuf
        simp [sizeToBytes, hk, hm, hg, hpf]

/-- Witness for C5: the amended theorem instantiated at "zzz" (bad suffix,
throws) and "xk" (bad prefix, NaN). -/
theorem sizeToBytes_error_amended_witness :
    sizeToBytes ("zzz") = SizeResult.error ("Invalid size zzz") ∧
    sizeToBytes ("xk") = SizeResult.nan :=
  ⟨sizeToBytes_error_amended.1 ("zzz") (by decide) (by decide) (by decide),
   sizeToBytes_error_amended.2 ("xk") (by decide) (by decide)⟩

/-! ## Claim C6 -/

/-- Claim C6: in a multipart iteration whose session fields are present
and non-empty, a part PUT response lacking the ETag header never raises —
the iteration still completes — and contributes the empty string as that
part's completion tag, which is passed through unchanged (paired with its
part number) to the finalize call. -/
theorem missing_etag_soft (env : IterEnv) (s c fuel : Nat)
    (hU : jsFalsy env.uploadId = false) (hK : jsFalsy env.key = false) :
    (∀ r, multipartIteration env s c fuel = some r → ∃ t, r = Except.ok t) ∧
    (∀ t, multipartIteration env s c fuel = some (Except.ok t) →
      t.finalizeParts = completeMultipartParts t.eTags ∧
      ∀ i pr, t.parts.get? i = some pr → env.etag pr.1 = none →
        t.eTags.get? i = some ("") ∧
        t.finalizeParts.get? i = some (("", i + 1))) := by
  have hcond : (jsFalsy env.uploadId || jsFalsy env.key) = false := by
    rw [hU, hK]
    rfl
  constructor
  · intro r hr
    unfold multipartIteration at hr
    rw [hcond] at hr
    simp only [Bool.false_eq_true, if_false] at hr
    obtain ⟨w, hw, hfw⟩ := Option.map_eq_some'.mp hr
    exact ⟨_, hfw.symm⟩
  · intro t ht
    unfold multipartIteration at ht
    rw [hcond] at ht
    simp only [Bool.false_eq_true, if_false] at ht
    obtain ⟨w, hw, hfw⟩ := Option.map_eq_some'.mp ht
    injection hfw with hrec
    subst hrec
    refine ⟨rfl, ?_⟩
    intro i pr hp hnone
    have htag : (List.map (fun pr => ((env.etag pr.1).getD ("")))
        (w.1 ++ if w.2.2 > 0 then [(w.2.1, s % c)] else [])).get? i =
        some ("") := by
      rw [List.get?_map]
      simp only at hp
      rw [hp]
      simp [hnone]
    refine ⟨htag, ?_⟩
    rw [List.get?_map] at htag
    simp only [completeMultipartParts, List.get?_map, List.get?_enum]
    rw [htag]
    rfl

/-- Witness for C6: the theorem applied to an environment that never
returns an ETag header, for the (10m, 5m) scenario shape: the first part's
recorded tag is the empty string and the finalize call receives it
unchanged as part number 1. -/
theorem missing_etag_soft_witness :
    noTagTrace.finalizeParts = completeMultipartParts noTagTrace.eTags ∧
    noTagTrace.eTags.get? 0 = some ("") ∧
    noTagTrace.finalizeParts.get? 0 = some (("", 1)) :=
  have h := (missing_etag_soft noTagEnv 10485760 5242880 2 rfl rfl).2
    noTagTrace rfl
  ⟨h.1, (h.2 0 (1, 5242880) rfl rfl).1, (h.2 0 (1, 5242880) rfl rfl).2⟩

/-! ## Claim C7 -/

/-- Claim C7: a multipart initiation response lacking the UploadId or the
Key field makes the iteration throw the missing-session-field error and
abort; with both fields present and non-empty that error branch is
unreachable and the iteration proceeds to the part uploads (for a positive
chunk size and enough fuel to cover the while loop). -/
theorem session_field_check (env : IterEnv) (s c fuel : Nat) :
    ((env.uploadId = none ∨ env.key = none) →
      multipartIteration env s c fuel =
        some (Except.error ("UploadId or Key is undefined"))) ∧
    (∀ u k, env.uploadId = some u → u ≠ "" → env.key = some k → k ≠ "" →
      0 < c → s ≤ fuel →
      ∃ t, multipartIteration env s c fuel = some (Except.ok t)) := by
  constructor
  · intro h
    have hcond : (jsFalsy env.uploadId || jsFalsy env.key) = true := by
      rcases h with h | h <;> rw [h] <;> simp [jsFalsy]
    simp [multipartIteration, hcond]
  · intro u k hu hune hk hkne hc hfuel
    have hU : jsFalsy env.uploadId = false := by
      rw [hu]
      simpa [jsFalsy] using beq_eq_false_iff_ne.mpr hune
    have hK : jsFalsy env.key = false := by
      rw [hk]
      simpa [jsFalsy] using beq_eq_false_iff_ne.mpr hkne
    obtain ⟨w, hw⟩ := partsLoop_total c hc fuel s 1 hfuel
    unfold multipartIteration
    rw [hU, hK]
    simp only [Bool.or_self, Bool.false_eq_true, if_false]
    rw [hw]
    exact ⟨_, rfl⟩

/-- Witness for C7: both halves of the theorem at concrete inputs — an
initiation response with no UploadId throws, and the benign environment
proceeds to an ok trace. -/
theorem session_field_check_witness :
    (multipartIteration (IterEnv.mk none (some ("k")) (fun _ => none)) 7 3 9 =
      some (Except.error ("UploadId or Key is undefined"))) ∧
    ∃ t, multipartIteration sampleEnv 7 3 9 = some (Except.ok t) :=
  ⟨(session_field_check (IterEnv.mk none (some ("k")) (fun _ => none)) 7 3 9).1
      (Or.inl rfl),
   (session_field_check sampleEnv 7 3 9).2 ("u") ("k") rfl (by decide) rfl
      (by decide) (by decide) (by decide)⟩

/-! ## Claim C8 -/

/-- Claim C8 (counterexample): key synthesis is not collision-free on
monotonic-time readings — the distinct readings (1, 23) and (12, 3)
produce the same synthesized key "p/123". -/
theorem getKey_collision_cex :
    getKey ("p") (1, 23) = getKey ("p") (12, 3) ∧
    ((1, 23) : Nat × Nat) ≠ (12, 3) :=
  ⟨by decide, by decide⟩

/-- Claim C8 (amended): for a fixed scenario prefix, two readings
synthesize equal keys exactly when the concatenations of the decimal
renderings of their seconds and nanoseconds fields coincide — so keys are
distinct whenever those concatenated strings differ, but the suffix map is
not injective on the (seconds, nanoseconds) readings themselves. -/
theorem getKey_eq_iff (base : String) (t u : Nat × Nat) :
    getKey base t = getKey base u ↔
      Nat.repr t.1 ++ Nat.repr t.2 = Nat.repr u.1 ++ Nat.repr u.2 := by
  unfold getKey
  exact string_append_cancel_left _ _ _

/-! ## Claim C9 -/

/-- Claim C9 (counterexample): a store whose scenario
"traditional-upload-5m" is present with an empty sample sequence makes the
upload-type report render that cell as the text "NaN" (not blank) and feed
NaN (not null) into the chart series, so the claim as stated fails. -/
theorem reporter_empty_nan_cex :
    traditionalCell emptyScenarioStore ("5m") = some JVal.nan ∧
    fullUploadTableCell (traditionalCell emptyScenarioStore ("5m")) =
      TableCell.nanText ∧
    TableCell.nanText ≠ TableCell.blank ∧
    fullUploadChartCell (traditionalCell emptyScenarioStore ("5m")) =
      ChartCell.nan ∧
    ChartCell.nan ≠ ChartCell.null :=
  ⟨by decide, by decide, by decide, by decide, by decide⟩

/-- Claim C9 (amended): a scenario absent from the store renders blank in
the upload-type table and null in its chart series; but a scenario present
with zero samples has mean NaN, which that table renders as the text "NaN"
and that chart series carries as NaN.  Only the multipart phase-breakdown
table maps a NaN statistic to a blank cell; its chart series also carry
NaN.  No path crashes (every rendering function is total). -/
theorem reporter_nan_handling :
    (∀ v : Option JVal, v = none →
      fullUploadTableCell v = TableCell.blank ∧
      fullUploadChartCell v = ChartCell.null) ∧
    amean ([] : List ℚ) = JVal.nan ∧
    fullUploadTableCell (some JVal.nan) = TableCell.nanText ∧
    fullUploadChartCell (some JVal.nan) = ChartCell.nan ∧
    (∀ (st : List (String × List ℚ)) (key : String),
      st.lookup key = none ∨ st.lookup key = some ([] : List ℚ) →
      detailedStat st key = JVal.nan) ∧
    detailedTableCell JVal.nan = TableCell.blank ∧
    detailedChartCell JVal.nan = ChartCell.nan := by
  refine ⟨?_, rfl, rfl, rfl, ?_, rfl, rfl⟩
  · intro v hv
    subst hv
    exact ⟨rfl, rfl⟩
  · intro st key h
    rcases h with h | h <;> simp [detailedStat, h, amean]

/-- Witness for C9: the amended theorem applied to the absent-scenario
cell and to the concrete store with an empty sample sequence. -/
theorem reporter_nan_handling_witness :
    (fullUploadTableCell none = TableCell.blank ∧
      fullUploadChartCell none = ChartCell.null) ∧
    detailedStat emptyScenarioStore ("traditional-upload-5m") = JVal.nan :=
  ⟨reporter_nan_handling.1 none rfl,
   reporter_nan_handling.2.2.2.2.1 emptyScenarioStore ("traditional-upload-5m")
     (Or.inr (by decide))⟩

/-! ## Claim C10 -/

/-- Claim C10: every completed iteration of a multipart scenario appends
exactly one sample to each of its three measurement buckets — so after
every completed iteration the three buckets' sample counts are equal —
and the total bucket's sample for an iteration is the sum of that
iteration's initiation, part-upload and finalize phase durations, while
the upload and complete buckets hold the part-upload and finalize phase
durations respectively. -/
theorem mp_buckets_aligned (d : Nat → MPDur) (budget : Nat) :
    (∀ k st, mpCoherent d k st → mpCoherent d (k + 1) (mpIter (d k) st)) ∧
    (∀ fuel t0 st', mpRun d budget fuel (MPState.mk [] [] [] t0) = some st' →
      ∃ k, mpCoherent d k st' ∧ st'.total.length = k ∧
        st'.upload.length = k ∧ st'.complete.length = k) := by
  refine ⟨mpIter_coherent d, ?_⟩
  intro fuel t0 st' h
  obtain ⟨n, hn⟩ := mpRun_coherent d budget fuel 0 _ st' ⟨rfl, rfl, rfl⟩ h
  exact ⟨n, hn, by rw [hn.1]; simp, by rw [hn.2.1]; simp, by rw [hn.2.2]; simp⟩

/-- Witness for C10: the theorem applied to a concrete run of three
iterations with phase durations 1, 2 and 3 under a zero budget. -/
theorem mp_buckets_aligned_witness :
    ∃ k, mpCoherent (fun _ => MPDur.mk 1 2 3) k
        (MPState.mk [6, 6, 6] [2, 2, 2] [3, 3, 3] 18) ∧
      (MPState.mk [6, 6, 6] [2, 2, 2] [3, 3, 3] 18).total.length = k ∧
      (MPState.mk [6, 6, 6] [2, 2, 2] [3, 3, 3] 18).upload.length = k ∧
      (MPState.mk [6, 6, 6] [2, 2, 2] [3, 3, 3] 18).complete.length = k :=
  (mp_buckets_aligned (fun _ => MPDur.mk 1 2 3) 0).2 3 0
    (MPState.mk [6, 6, 6] [2, 2, 2] [3, 3, 3] 18) (by decide)

end S3Bench
